import Mathlib

/-!
Verification development for the pgtype value-conversion engine
(package `pgtype`, file `pgtype.go`): the type registry (`Map`), the
plan-resolution algorithms (`PlanEncode`, `PlanScan` / `planScan`), the
memoized scan-plan cache, and the NULL handling of `Map.Encode` and
`Map.Scan`.

The embedding is shallow: Go maps become association lists with
replace-on-insert semantics, Go interface values become inductive data
carrying their dynamic (reflect) type, and the mutually recursive
plan-resolution search is written with an explicit fuel parameter
(`Fueled.out` marks fuel exhaustion; the Go original can recurse
unboundedly through the wrapper chain on adversarial inputs, so no
uniform structural measure exists).  Go runtime panics (the out-of-range
array index in `Map.PlanScan`) are modelled by `POut.crash`.

External collaborators that live outside `pgtype.go` (the concrete
codecs, the builtin wrapper types such as `int4Wrapper`, `structWrapper`
or `anySliceArray`, and the capability interfaces `TextScanner`,
`TextValuer`, `sql.Scanner`, `driver.Valuer`, `fmt.Stringer`,
`SkipUnderlyingTypePlanner`) are modelled opaquely: codecs are records
of functions, wrapper types are dedicated `RType` constructors with no
further structure, and interface implementation is a property of the
dynamic type.
-/

set_option linter.unusedVariables false

namespace Pgtype

/-- Outcome of running a fueled computation: `out` models fuel
exhaustion, i.e. a Go execution that would recurse beyond the modelled
depth. -/
inductive Fueled (α : Type) where
  | out
  | val (a : α)
deriving DecidableEq, Repr

/-- Outcome of a Go computation that can also panic: `crash` models a
Go runtime panic (e.g. an out-of-range array index) and `spin` models
fuel exhaustion of an inner fueled search. -/
inductive POut (α : Type) where
  | ok (a : α)
  | crash
  | spin

/-- Association list lookup, first match wins (Go map read). -/
def alookup {κ α : Type} [DecidableEq κ] : List (κ × α) → κ → Option α
  | [], _ => none
  | p :: rest, k0 => if p.1 = k0 then some p.2 else alookup rest k0

/-- Association list insert with replacement (Go map write). -/
def ainsert {κ α : Type} [DecidableEq κ] : List (κ × α) → κ → α → List (κ × α)
  | [], k0, a0 => [(k0, a0)]
  | p :: rest, k0, a0 =>
      if p.1 = k0 then (k0, a0) :: rest else p :: ainsert rest k0 a0

/-- PostgreSQL format codes (`int16` in the source, modelled as `Int`). -/
def TextFormatCode : Int := 0

def BinaryFormatCode : Int := 1

/-- OIDs used by the fast paths of `planScan` (from the constant table). -/
def ByteaOID : Nat := 17

def TextOID : Nat := 25

def VarcharOID : Nat := 1043

def Int4OID : Nat := 23

/-- The dynamic (reflect) type of a Go value.  `prim k` covers the bare
builtin types handled by the builtin-wrap adapters (k = 0..11: int,
int8, int16, int32, int64, uint, uint8, uint16, uint32, uint64,
float32, float64; k = 12..18: time.Time, time.Duration, net.IPNet,
net.IP, map of string to string pointer, map of string to string, the
16-byte array).  `wrapper k` stands for the wrapper types defined
outside `pgtype.go` (`int4Wrapper`, `stringWrapper`, `structWrapper`,
`anySliceArray`, ...): they are opaque here.  `stringerT`,
`textScannerT`, `textValuerT` and `sqlScannerT` stand for otherwise
unstructured types implementing exactly that capability interface, and
`other` for types implementing none of them. -/
inductive RType where
  | string
  | byteSlice
  | undecodedBytes
  | emptyIface
  | prim (k : Nat)
  | wrapper (k : Nat)
  | structT (exported : Nat)
  | sliceT (elem : RType)
  | ptr (elem : RType)
  | named (id : Nat) (underlying : RType)
  | stringerT (id : Nat)
  | textScannerT (id : Nat)
  | textValuerT (id : Nat)
  | sqlScannerT (id : Nat)
  | other (id : Nat)
deriving DecidableEq, Repr

/-- Go reflect kinds, at the granularity the adapter chain inspects. -/
inductive GoKind where
  | kString
  | kSlice
  | kPtr
  | kStruct
  | kPrim (k : Nat)
  | kOther
deriving DecidableEq, Repr

/-- The reflect kind of a type.  The kinds of the builtin types
`prim 12..18` and of the external wrapper types are opaque (`kOther`):
in the source their kind-directed adapters are shadowed by the
builtin-wrap adapter, which claims them first by exact type. -/
def RType.kind : RType → GoKind
  | .string => .kString
  | .byteSlice => .kSlice
  | .undecodedBytes => .kSlice
  | .sliceT _ => .kSlice
  | .ptr _ => .kPtr
  | .structT _ => .kStruct
  | .prim k => if k < 12 then .kPrim k else .kOther
  | .named _ u => u.kind
  | _ => .kOther

/-- The pointee type of a pointer-kinded type (`reflect.Value.Elem`). -/
def ptrElem : RType → Option RType
  | .ptr e => some e
  | .named _ u => ptrElem u
  | _ => none

/-- The element type of a slice-kinded type (`reflect.Type.Elem`). -/
def sliceElem : RType → Option RType
  | .byteSlice => some (.prim 6)
  | .undecodedBytes => some (.prim 6)
  | .sliceT e => some e
  | .named _ u => sliceElem u
  | _ => none

/-- Number of exported struct fields (`getExportedFieldValues` length;
a property of the struct type). -/
def exportedCount : RType → Nat
  | .structT n => n
  | .named _ u => exportedCount u
  | _ => 0

/-- Whether the type implements `TextScanner`. -/
def implsTextScanner : RType → Bool
  | .textScannerT _ => true
  | _ => false

/-- Whether the type implements `TextValuer`. -/
def implsTextValuer : RType → Bool
  | .textValuerT _ => true
  | _ => false

/-- Whether the type implements `sql.Scanner`. -/
def implsSQLScanner : RType → Bool
  | .sqlScannerT _ => true
  | _ => false

/-- Whether the type implements `SkipUnderlyingTypePlanner`.
Modelled from the spec: the builtin wrapper types (defined outside
`pgtype.go`) carry the "skip underlying-representation normalization"
opt-out marker; nothing else in the model does. -/
def implsSkipUnderlying : RType → Bool
  | .wrapper _ => true
  | .ptr (.wrapper _) => true
  | _ => false

/-- The canonical builtin type of a kind (`kindToTypes` /
`elemKindToPointerTypes` without the pointer): defined exactly for the
kinds int..float64 and string. -/
def canonicalOfKind : GoKind → Option RType
  | .kPrim k => some (.prim k)
  | .kString => some RType.string
  | _ => none

/-- A scan target as the resolver sees it: its dynamic type plus the
one value-level property the scan adapter chain inspects (`isRagged` of
the pointed-to slice in `TryWrapPtrMultiDimSliceScanPlan`). -/
structure Target where
  ty : RType
  ragged : Bool
deriving DecidableEq, Repr

/-- An encode value as the resolver sees it: its dynamic type, the
raggedness of the value when it is a slice of slices
(`TryWrapMultiDimSliceEncodePlan`), and its `driver.Valuer` capability:
`none` = does not implement `driver.Valuer`; `some none` = implements
it but is a typed nil (`dv == nil` in `Map.Encode`); `some (some r)` =
implements it and `Value()` returns `r` (an error, or `none` for SQL
NULL, or an unwrapped value). -/
inductive EVal where
  | mk (ty : RType) (ragged : Bool)
       (valuer : Option (Option (Except String (Option EVal))))

def EVal.ty : EVal → RType
  | .mk t _ _ => t

def EVal.ragged : EVal → Bool
  | .mk _ r _ => r

def EVal.valuer : EVal → Option (Option (Except String (Option EVal)))
  | .mk _ _ v => v

/-- Scan plans, one constructor per concrete `ScanPlan` implementation
in `pgtype.go`.  Plans produced by a codec (external collaborators) are
`codecPlan cid oid fmt` where `cid` identifies the codec and `oid`,
`fmt` are the arguments the codec's `PlanScan` received.  Wrapper plans
carry their bound next plan (`SetNext` is binding-at-construction
here). -/
inductive ScanPlan where
  | anyToUndecodedBytes
  | stringPlan
  | anyTextToBytes
  | textAnyToTextScanner
  | failPlan (oid : Nat) (fmt : Int)
  | codecPlan (cid : Nat) (oid : Nat) (fmt : Int)
  | pointerPointer (next : ScanPlan)
  | wrapBuiltin (k : Nat) (next : ScanPlan)
  | underlyingScan (next : ScanPlan)
  | wrapStruct (next : ScanPlan)
  | wrapPtrSlice (next : ScanPlan)
  | wrapPtrMultiDim (next : ScanPlan)
  | ptrEmptyIface (cid : Nat) (oid : Nat) (fmt : Int)
  | codecSQLScanner (cid : Nat) (oid : Nat) (fmt : Int)
  | sqlScanner (fmt : Int)
deriving DecidableEq, Repr

/-- `_, failed := nextPlan.(*scanPlanFail)` in the wrapper-chain loop. -/
def ScanPlan.isFail : ScanPlan → Bool
  | .failPlan _ _ => true
  | _ => false

/-- Encode plans, one constructor per concrete `EncodePlan`
implementation in `pgtype.go`. -/
inductive EncodePlan where
  | stringToAnyText
  | textValuerToAnyText
  | codecPlan (cid : Nat) (oid : Nat) (fmt : Int)
  | derefPointer (next : EncodePlan)
  | wrapBuiltinEnc (k : Nat) (next : EncodePlan)
  | underlyingEnc (next : EncodePlan)
  | wrapStructEnc (next : EncodePlan)
  | wrapSliceEnc (next : EncodePlan)
  | wrapMultiDimEnc (next : EncodePlan)
deriving DecidableEq, Repr

/-- The codec capability contract.  Codecs are external collaborators
(out of scope of `pgtype.go`); they are modelled as records of
functions of the arguments the registry passes them, plus an identity
`cid` so that plans built around a codec can name it. -/
structure Codec where
  cid : Nat
  preferredFormat : Int
  formatSupported : Int → Bool
  planEncode : Nat → Int → RType → Option EncodePlan
  planScan : Nat → Int → Target → Option ScanPlan

/-- A registered type descriptor (`Type` in the source: Codec, Name,
OID). -/
structure PGType where
  name : String
  oid : Nat
  codec : Codec

/-- The registry (`Map` in the source).  Go maps are association
lists; `reflectTypeToType = none` models the nil (invalidated) derived
shape index, rebuilt lazily by `TypeForValue`.  The memoized scan-plan
cache maps oid, then target reflect type, to a two-slot array indexed
by format code (`[2]ScanPlan`, nil entries as `none`). -/
structure Map where
  oidToType : List (Nat × PGType)
  nameToType : List (String × PGType)
  reflectTypeToName : List (RType × String)
  oidToFormatCode : List (Nat × Int)
  reflectTypeToType : Option (List (RType × PGType))
  memoizedScanPlans : List (Nat × List (RType × (Option ScanPlan × Option ScanPlan)))

/-- A `Map` with nothing registered (the state `NewMap` starts from
before its bootstrap registrations). -/
def emptyMap : Map :=
  { oidToType := [], nameToType := [], reflectTypeToName := [],
    oidToFormatCode := [], reflectTypeToType := none, memoizedScanPlans := [] }

/-- `Map.RegisterType`: insert by OID and by name, record the preferred
format, discard the derived shape index and the whole memoized
scan-plan cache. -/
def Map.RegisterType (m : Map) (t : PGType) : Map :=
  { m with
    oidToType := ainsert m.oidToType t.oid t,
    nameToType := ainsert m.nameToType t.name t,
    oidToFormatCode := ainsert m.oidToFormatCode t.oid t.codec.preferredFormat,
    reflectTypeToType := none,
    memoizedScanPlans := [] }

/-- `Map.RegisterDefaultPgType`: record a reflect-type-to-name default
mapping and invalidate the same caches as `RegisterType`. -/
def Map.RegisterDefaultPgType (m : Map) (ty : RType) (name : String) : Map :=
  { m with
    reflectTypeToName := ainsert m.reflectTypeToName ty name,
    reflectTypeToType := none,
    memoizedScanPlans := [] }

def Map.TypeForOID (m : Map) (oid : Nat) : Option PGType :=
  alookup m.oidToType oid

def Map.TypeForName (m : Map) (name : String) : Option PGType :=
  alookup m.nameToType name

/-- `Map.buildReflectTypeToType`: compose the reflect-type-to-name
defaults with the name index. -/
def Map.buildReflectTypeToType (m : Map) : List (RType × PGType) :=
  m.reflectTypeToName.filterMap fun p => (alookup m.nameToType p.2).map ((p.1, ·))

/-- `Map.TypeForValue` (result).  The source lazily builds and caches
the derived index when it is nil; the cached index always equals the
freshly built one, so the lookup result is modelled purely. -/
def Map.TypeForValue (m : Map) (ty : RType) : Option PGType :=
  alookup (match m.reflectTypeToType with
            | some l => l
            | none => m.buildReflectTypeToType) ty

/-- `Map.FormatCodeForOID`: the registered preferred format, or the
text format code if the OID is not registered. -/
def Map.FormatCodeForOID (m : Map) (oid : Nat) : Int :=
  (alookup m.oidToFormatCode oid).getD TextFormatCode

/-- The fast paths at the top of `Map.planScan`: the
`*UndecodedBytes` passthrough, then the format-directed type switch
(binary + `*string` for the known text-like OIDs; text + `*string`;
text + `*[]byte` for non-bytea OIDs; text + `TextScanner`). -/
def scanFastPath (oid : Nat) (fmt : Int) (ty : RType) : Option ScanPlan :=
  if ty = .ptr .undecodedBytes then some .anyToUndecodedBytes
  else if fmt = BinaryFormatCode then
    if ty = .ptr .string ∧ (oid = TextOID ∨ oid = VarcharOID) then some .stringPlan
    else none
  else if fmt = TextFormatCode then
    if ty = .ptr .string then some .stringPlan
    else if ty = .ptr .byteSlice then
      if oid ≠ ByteaOID then some .anyTextToBytes else none
    else if implsTextScanner ty then some .textAnyToTextScanner
    else none
  else none

/-- The fast paths at the top of `Map.PlanEncode` (text format only):
plain `string`, then `TextValuer`. -/
def encodeFastPath (fmt : Int) (ty : RType) : Option EncodePlan :=
  if fmt = TextFormatCode then
    if ty = RType.string then some .stringToAnyText
    else if implsTextValuer ty then some .textValuerToAnyText
    else none
  else none

/-- Descriptor resolution of `Map.planScan` (lines 1090-1097): lookup
by OID first; on a miss — any miss, not only OID 0 — fall back to
shape inference and adopt the inferred OID ("Preserve assumed OID in
case we are recursively called below"). -/
def resolveScanDT (m : Map) (oid : Nat) (ty : RType) : Option PGType × Nat :=
  match m.TypeForOID oid with
  | some dt => (some dt, oid)
  | none =>
      match m.TypeForValue ty with
      | some dt => (some dt, dt.oid)
      | none => (none, oid)

/-- Descriptor resolution of `Map.PlanEncode` (lines 1203-1214): shape
inference is consulted only when the OID is 0; a nonzero OID is looked
up by OID only. -/
def resolveEncodeDT (m : Map) (oid : Nat) (ty : RType) : Option PGType × Nat :=
  if oid = 0 then
    match m.TypeForValue ty with
    | some dt => (some dt, dt.oid)
    | none => (none, oid)
  else
    match m.TypeForOID oid with
    | some dt => (some dt, oid)
    | none => (none, oid)

/-- `TryPointerPointerScanPlan`: a pointer-kinded target whose pointee
is itself pointer-kinded is claimed; the next target is the zero value
of the pointee (pointer) type. -/
def TryPointerPointerScanPlan (t : Target) :
    Option ((ScanPlan → ScanPlan) × Target) :=
  match ptrElem t.ty with
  | some e =>
      match ptrElem e with
      | some _ => some (fun p => ScanPlan.pointerPointer p, ⟨e, false⟩)
      | none => none
  | none => none

/-- `TryWrapBuiltinTypeScanPlan`: an exact type switch over the
pointers to builtin types; the next target is the pointer to the
corresponding wrapper type.  Wrapper ids: prim k keeps k, string is 20,
byte slice is 21. -/
def TryWrapBuiltinTypeScanPlan (t : Target) :
    Option ((ScanPlan → ScanPlan) × Target) :=
  match t.ty with
  | .ptr (.prim k) =>
      if k ≤ 18 then some (fun p => ScanPlan.wrapBuiltin k p, ⟨.ptr (.wrapper k), false⟩)
      else none
  | .ptr .string => some (fun p => ScanPlan.wrapBuiltin 20 p, ⟨.ptr (.wrapper 20), false⟩)
  | .ptr .byteSlice => some (fun p => ScanPlan.wrapBuiltin 21 p, ⟨.ptr (.wrapper 21), false⟩)
  | _ => none

/-- `TryFindUnderlyingTypeScanPlan`: unless the target opts out via
`SkipUnderlyingTypePlanner`, a pointer whose pointee kind has a
canonical builtin (or is a slice of uint8) is converted to the pointer
to that builtin, provided the conversion changes the type. -/
def TryFindUnderlyingTypeScanPlan (t : Target) :
    Option ((ScanPlan → ScanPlan) × Target) :=
  if implsSkipUnderlying t.ty then none
  else
    match t.ty with
    | .ptr e =>
        let nextTy : Option RType :=
          match canonicalOfKind e.kind with
          | some c => some (.ptr c)
          | none =>
              if e.kind = GoKind.kSlice ∧ sliceElem e = some (.prim 6) then
                some (.ptr .byteSlice)
              else none
        match nextTy with
        | some c =>
            if c ≠ t.ty then some (fun p => ScanPlan.underlyingScan p, ⟨c, false⟩)
            else none
        | none => none
    | _ => none

/-- `TryWrapStructScanPlan`: a pointer to a struct with at least one
exported field is wrapped into a `ptrStructWrapper` (wrapper id 23). -/
def TryWrapStructScanPlan (t : Target) :
    Option ((ScanPlan → ScanPlan) × Target) :=
  match t.ty with
  | .ptr e =>
      if e.kind = GoKind.kStruct ∧ 1 ≤ exportedCount e then
        some (fun p => ScanPlan.wrapStruct p, ⟨.ptr (.wrapper 23), false⟩)
      else none
  | _ => none

/-- `TryWrapPtrSliceScanPlan`: a pointer to a slice-kinded target is
wrapped into an `anySliceArray` (wrapper id 24). -/
def TryWrapPtrSliceScanPlan (t : Target) :
    Option ((ScanPlan → ScanPlan) × Target) :=
  match t.ty with
  | .ptr e =>
      if e.kind = GoKind.kSlice then
        some (fun p => ScanPlan.wrapPtrSlice p, ⟨.ptr (.wrapper 24), false⟩)
      else none
  | _ => none

/-- `TryWrapPtrMultiDimSliceScanPlan`: a pointer to a slice of slices
that is not ragged is wrapped into an `anyMultiDimSliceArray`
(wrapper id 26); ragged destinations are rejected. -/
def TryWrapPtrMultiDimSliceScanPlan (t : Target) :
    Option ((ScanPlan → ScanPlan) × Target) :=
  match t.ty with
  | .ptr e =>
      if e.kind = GoKind.kSlice
          ∧ (∃ e2, sliceElem e = some e2 ∧ e2.kind = GoKind.kSlice)
          ∧ t.ragged = false then
        some (fun p => ScanPlan.wrapPtrMultiDim p, ⟨.ptr (.wrapper 26), false⟩)
      else none
  | _ => none

/-- The `TryWrapScanPlanFuncs` chain installed by `NewMap`, in order,
applied to a target: the claims of the funcs that fire. -/
def scanWrapCandidates (t : Target) : List ((ScanPlan → ScanPlan) × Target) :=
  [TryPointerPointerScanPlan t, TryWrapBuiltinTypeScanPlan t,
   TryFindUnderlyingTypeScanPlan t, TryWrapStructScanPlan t,
   TryWrapPtrSliceScanPlan t, TryWrapPtrMultiDimSliceScanPlan t].filterMap id

/-- The wrapper-chain loop of `Map.planScan`: recursively resolve the
next target; a fail plan makes the loop continue with the next rule,
any other plan is bound to the wrapper (`SetNext`) and returned. -/
def scanWrapLoop (next : Target → Fueled ScanPlan) :
    List ((ScanPlan → ScanPlan) × Target) → Fueled (Option ScanPlan)
  | [] => .val none
  | c :: rest =>
      match next c.2 with
      | .out => .out
      | .val p => if p.isFail then scanWrapLoop next rest else .val (some (c.1 p))

/-- The terminal fallbacks at the bottom of `Map.planScan`: with a
descriptor, a `*interface` target gets the generic-decode plan and a
`sql.Scanner` the codec-backed scanner plan; without one, a
`sql.Scanner` gets the raw scanner plan; otherwise the fail plan
carrying the (possibly adopted) OID and format. -/
def scanTerminal (dtOpt : Option PGType) (oid2 : Nat) (fmt : Int) (ty : RType) : ScanPlan :=
  match dtOpt with
  | some dt =>
      if ty = .ptr .emptyIface then .ptrEmptyIface dt.codec.cid oid2 fmt
      else if implsSQLScanner ty then .codecSQLScanner dt.codec.cid oid2 fmt
      else .failPlan oid2 fmt
  | none =>
      if implsSQLScanner ty then .sqlScanner fmt
      else .failPlan oid2 fmt

/-- `Map.planScan`, with fuel: fast paths, descriptor resolution,
direct codec plan, wrapper chain (recursing at the adopted OID), then
the terminal fallbacks. -/
def planScanF : Nat → Map → Nat → Int → Target → Fueled ScanPlan
  | 0, _, _, _, _ => .out
  | fuel + 1, m, oid, fmt, t =>
      match scanFastPath oid fmt t.ty with
      | some p => .val p
      | none =>
          match resolveScanDT m oid t.ty with
          | (dtOpt, oid2) =>
              match (match dtOpt with
                     | some dt => dt.codec.planScan oid2 fmt t
                     | none => none) with
              | some p => .val p
              | none =>
                  match scanWrapLoop (planScanF fuel m oid2 fmt) (scanWrapCandidates t) with
                  | .out => .out
                  | .val (some p) => .val p
                  | .val none => .val (scanTerminal dtOpt oid2 fmt t.ty)

/-- Modelled from the spec (claim comparison): the scan-side resolver
as the spec sentence describes it, with shape inference consulted only
when the identifier is 0 — the mirror of `resolveEncodeDT`. -/
def resolveScanDTSpec (m : Map) (oid : Nat) (ty : RType) : Option PGType × Nat :=
  if oid = 0 then
    match m.TypeForValue ty with
    | some dt => (some dt, dt.oid)
    | none => (none, oid)
  else
    match m.TypeForOID oid with
    | some dt => (some dt, oid)
    | none => (none, oid)

/-- Modelled from the spec (claim comparison): `planScanF` with the
spec-worded resolver `resolveScanDTSpec` in place of the source's
`resolveScanDT`; everything else identical. -/
def planScanSpecF : Nat → Map → Nat → Int → Target → Fueled ScanPlan
  | 0, _, _, _, _ => .out
  | fuel + 1, m, oid, fmt, t =>
      match scanFastPath oid fmt t.ty with
      | some p => .val p
      | none =>
          match resolveScanDTSpec m oid t.ty with
          | (dtOpt, oid2) =>
              match (match dtOpt with
                     | some dt => dt.codec.planScan oid2 fmt t
                     | none => none) with
              | some p => .val p
              | none =>
                  match scanWrapLoop (planScanSpecF fuel m oid2 fmt) (scanWrapCandidates t) with
                  | .out => .out
                  | .val (some p) => .val p
                  | .val none => .val (scanTerminal dtOpt oid2 fmt t.ty)

/-- Read slot `fmt` of a `[2]ScanPlan` memo array: `none` is the Go
index-out-of-range panic. -/
def arrGet (tm : Option ScanPlan × Option ScanPlan) (fmt : Int) :
    Option (Option ScanPlan) :=
  if fmt = 0 then some tm.1
  else if fmt = 1 then some tm.2
  else none

/-- Write slot `fmt` of a `[2]ScanPlan` memo array.  In `Map.PlanScan`
the write is reached only after the read of the same slot succeeded, so
the out-of-range case is never taken there. -/
def arrSet (tm : Option ScanPlan × Option ScanPlan) (fmt : Int) (p : ScanPlan) :
    Option ScanPlan × Option ScanPlan :=
  if fmt = 0 then (some p, tm.2)
  else if fmt = 1 then (tm.1, some p)
  else tm

/-- The memo array for `(oid, ty)` ( `[2]ScanPlan` zero value when the
oid or type entry is missing). -/
def memoLookup (m : Map) (oid : Nat) (ty : RType) :
    Option ScanPlan × Option ScanPlan :=
  (alookup ((alookup m.memoizedScanPlans oid).getD []) ty).getD (none, none)

/-- Store a freshly computed plan in the memo under `(oid, ty, fmt)`. -/
def memoInsert (m : Map) (oid : Nat) (ty : RType) (fmt : Int) (p : ScanPlan) : Map :=
  let om := (alookup m.memoizedScanPlans oid).getD []
  let tm := (alookup om ty).getD (none, none)
  { m with memoizedScanPlans := ainsert m.memoizedScanPlans oid (ainsert om ty (arrSet tm fmt p)) }

/-- `Map.PlanScan`: the memoization layer over `planScan`.  The memo
array is indexed directly with the caller-supplied format code
(`typeMemo[formatCode]`), which panics out of bounds (`POut.crash`).
The returned `Bool` instruments whether the underlying `planScan`
computation was invoked. -/
def Map.PlanScan (m : Map) (fuel : Nat) (oid : Nat) (fmt : Int) (t : Target) :
    POut (ScanPlan × Map × Bool) :=
  match arrGet (memoLookup m oid t.ty) fmt with
  | none => .crash
  | some (some p) => .ok (p, m, false)
  | some none =>
      match planScanF fuel m oid fmt t with
      | .out => .spin
      | .val p => .ok (p, memoInsert m oid t.ty fmt p, true)

/-- A scan destination's stored value, deep enough to express the plan
execution semantics the claims need (byte strings, optional byte
slices, pointers). -/
inductive GoVal where
  | str (s : List Nat)
  | bytes (b : Option (List Nat))
  | ptrV (p : Option GoVal)
  | otherV (n : Nat)

/-- `Map.Scan`: a nil destination returns immediately with no error
and no plan resolution; otherwise the memoized plan is resolved and
executed on the destination.  Plan execution (dynamic dispatch over all
plan implementations, many of them external codec plans) is a
parameter `exec`; the result pairs the post-call registry with the new
destination value or the scan error. -/
def Map.Scan (m : Map) (exec : ScanPlan → Option (List Nat) → GoVal → Except String GoVal)
    (fuel : Nat) (oid : Nat) (fmt : Int) (src : Option (List Nat))
    (dst : Option (Target × GoVal)) : POut (Map × Except String (Option GoVal)) :=
  match dst with
  | none => .ok (m, Except.ok none)
  | some (t, v) =>
      match m.PlanScan fuel oid fmt t with
      | .crash => .crash
      | .spin => .spin
      | .ok (p, m2, _) => .ok (m2, (exec p src v).map some)

/-- `pointerPointerScanPlan.Scan`.  `el` is the pointer value the
destination (a pointer to pointer) points at; `zeroElem` is the zero
value of the pointee type (`reflect.New(el.Type().Elem())` starts
from it).  A nil source sets `el` to nil; a non-nil source replaces
`el` with a pointer to a fresh pointee and scans the source into that
pointee with the bound next plan. -/
def pointerPointerScanPlanScan
    (next : Option (List Nat) → GoVal → Except String GoVal)
    (zeroElem : GoVal) (src : Option (List Nat)) (el : Option GoVal) :
    Except String (Option GoVal) :=
  match src with
  | none => Except.ok none
  | some s => (next (some s) zeroElem).map (fun v => some v)

/-- `scanPlanAnyTextToBytes.Scan`: a nil source sets the destination
byte slice to nil; a non-nil source stores a copy of the source bytes
(byte-for-byte, hence value-equal) in the destination.  Never errors. -/
def scanPlanAnyTextToBytesScan (src : Option (List Nat))
    (dstBuf : Option (List Nat)) : Except String (Option (List Nat)) :=
  match src with
  | none => Except.ok none
  | some s => Except.ok (some s)

/-- `TryWrapDerefPointerEncodePlan`: any pointer-typed value is
claimed; the next value is the zero value of the pointee type. -/
def TryWrapDerefPointerEncodePlan (v : EVal) :
    Option ((EncodePlan → EncodePlan) × EVal) :=
  match v.ty with
  | .ptr e => some (fun p => EncodePlan.derefPointer p, .mk e false none)
  | _ => none

/-- `TryWrapBuiltinTypeEncodePlan`: an exact type switch over the bare
builtin types; a `fmt.Stringer` implementer is the final case.  The
next value has the corresponding wrapper type (string 20, byte slice
21, Stringer 22). -/
def TryWrapBuiltinTypeEncodePlan (v : EVal) :
    Option ((EncodePlan → EncodePlan) × EVal) :=
  match v.ty with
  | .prim k =>
      if k ≤ 18 then some (fun p => EncodePlan.wrapBuiltinEnc k p, .mk (.wrapper k) false none)
      else none
  | .string => some (fun p => EncodePlan.wrapBuiltinEnc 20 p, .mk (.wrapper 20) false none)
  | .byteSlice => some (fun p => EncodePlan.wrapBuiltinEnc 21 p, .mk (.wrapper 21) false none)
  | .stringerT _ => some (fun p => EncodePlan.wrapBuiltinEnc 22 p, .mk (.wrapper 22) false none)
  | _ => none

/-- `TryWrapFindUnderlyingTypeEncodePlan`: unless the value opts out
via `SkipUnderlyingTypePlanner`, a value whose kind has a canonical
builtin type is converted to it, provided the conversion changes the
type. -/
def TryWrapFindUnderlyingTypeEncodePlan (v : EVal) :
    Option ((EncodePlan → EncodePlan) × EVal) :=
  if implsSkipUnderlying v.ty then none
  else
    match canonicalOfKind v.ty.kind with
    | some c =>
        if c ≠ v.ty then some (fun p => EncodePlan.underlyingEnc p, .mk c false none)
        else none
    | none => none

/-- `TryWrapStructEncodePlan`: a struct-kinded value with at least one
exported field is wrapped into a `structWrapper` (wrapper id 25). -/
def TryWrapStructEncodePlan (v : EVal) :
    Option ((EncodePlan → EncodePlan) × EVal) :=
  if v.ty.kind = GoKind.kStruct ∧ 1 ≤ exportedCount v.ty then
    some (fun p => EncodePlan.wrapStructEnc p, .mk (.wrapper 25) false none)
  else none

/-- `TryWrapSliceEncodePlan`: a slice-kinded value is wrapped into an
`anySliceArray` (wrapper id 24). -/
def TryWrapSliceEncodePlan (v : EVal) :
    Option ((EncodePlan → EncodePlan) × EVal) :=
  if v.ty.kind = GoKind.kSlice then
    some (fun p => EncodePlan.wrapSliceEnc p, .mk (.wrapper 24) false none)
  else none

/-- `TryWrapMultiDimSliceEncodePlan`: a non-ragged slice of slices is
wrapped into an `anyMultiDimSliceArray` (wrapper id 26); a ragged value
is rejected. -/
def TryWrapMultiDimSliceEncodePlan (v : EVal) :
    Option ((EncodePlan → EncodePlan) × EVal) :=
  if v.ty.kind = GoKind.kSlice
      ∧ (∃ e2, sliceElem v.ty = some e2 ∧ e2.kind = GoKind.kSlice)
      ∧ v.ragged = false then
    some (fun p => EncodePlan.wrapMultiDimEnc p, .mk (.wrapper 26) false none)
  else none

/-- The `TryWrapEncodePlanFuncs` chain installed by `NewMap`, in
order, applied to a value: the claims of the funcs that fire. -/
def encodeWrapCandidates (v : EVal) : List ((EncodePlan → EncodePlan) × EVal) :=
  [TryWrapDerefPointerEncodePlan v, TryWrapBuiltinTypeEncodePlan v,
   TryWrapFindUnderlyingTypeEncodePlan v, TryWrapStructEncodePlan v,
   TryWrapSliceEncodePlan v, TryWrapMultiDimSliceEncodePlan v].filterMap id

/-- The wrapper-chain loop of `Map.PlanEncode`: recursively resolve
the adapted value; the first rule whose recursion yields a plan binds
the wrapper to it. -/
def encWrapLoop (next : EVal → Fueled (Option EncodePlan)) :
    List ((EncodePlan → EncodePlan) × EVal) → Fueled (Option EncodePlan)
  | [] => .val none
  | c :: rest =>
      match next c.2 with
      | .out => .out
      | .val (some p) => .val (some (c.1 p))
      | .val none => encWrapLoop next rest

/-- `Map.PlanEncode`, with fuel: fast paths, descriptor resolution
(inference only at OID 0), direct codec plan, wrapper chain recursing
at the adopted OID; `none` when no plan is found. -/
def planEncodeF : Nat → Map → Nat → Int → EVal → Fueled (Option EncodePlan)
  | 0, _, _, _, _ => .out
  | fuel + 1, m, oid, fmt, v =>
      match encodeFastPath fmt v.ty with
      | some p => .val (some p)
      | none =>
          match resolveEncodeDT m oid v.ty with
          | (dtOpt, oid2) =>
              match (match dtOpt with
                     | some dt => dt.codec.planEncode oid2 fmt v.ty
                     | none => none) with
              | some p => .val (some p)
              | none => encWrapLoop (planEncodeF fuel m oid2 fmt) (encodeWrapCandidates v)

/-- `Map.Encode`: a nil value emits nothing and returns no error, with
no plan resolution at all.  Otherwise a plan is resolved and executed
(`execE` is the dynamic dispatch over encode plans); when no plan is
found, a `driver.Valuer` value is unwrapped once and the whole encode
is retried on the unwrapped value (a typed-nil valuer short-circuits
to NULL), and anything else is a hard error.  The result is the
appended buffer (`none` = nil bytes) or the error. -/
def Map.Encode (m : Map)
    (execE : EncodePlan → EVal → List Nat → Except String (Option (List Nat))) :
    Nat → Nat → Int → Option EVal → List Nat →
    POut (Except String (Option (List Nat)))
  | _, _, _, none, _ => .ok (Except.ok none)
  | 0, _, _, some _, _ => .spin
  | fuel + 1, oid, fmt, some v, buf =>
      match planEncodeF (fuel + 1) m oid fmt v with
      | .out => .spin
      | .val (some plan) => .ok (execE plan v buf)
      | .val none =>
          match v.valuer with
          | none => .ok (Except.error ("unable to encode into OID " ++ toString oid))
          | some none => .ok (Except.ok none)
          | some (some (Except.error e)) => .ok (Except.error e)
          | some (some (Except.ok v2)) => m.Encode execE fuel oid fmt v2 buf

/-! Concrete registries, descriptors and values used to instantiate the
theorems below. -/

/-- A codec that plans for the concrete native shape `other 0` (and its
pointer), recording the OID and format it was consulted at. -/
def codecInt4 : Codec :=
  { cid := 1, preferredFormat := BinaryFormatCode,
    formatSupported := fun f => decide (f = 0 ∨ f = 1),
    planEncode := fun oid fmt ty =>
      if ty = .other 0 ∨ ty = .ptr (.other 0) then some (.codecPlan 1 oid fmt) else none,
    planScan := fun oid fmt t =>
      if t.ty = .ptr (.other 0) then some (.codecPlan 1 oid fmt) else none }

def int4Name : String := "int4"

def int4Type : PGType := { name := int4Name, oid := Int4OID, codec := codecInt4 }

/-- A registry with `int4Type` registered and the native shape
`ptr (other 0)` registered as its default shape. -/
def mC2 : Map :=
  (emptyMap.RegisterType int4Type).RegisterDefaultPgType (.ptr (.other 0)) int4Name

/-- A scan target of the shape `codecInt4` plans for. -/
def tC2 : Target := ⟨.ptr (.other 0), false⟩

/-- A codec with no plans, identity 2. -/
def codecA : Codec :=
  { cid := 2, preferredFormat := TextFormatCode,
    formatSupported := fun _ => true,
    planEncode := fun _ _ _ => none,
    planScan := fun _ _ _ => none }

/-- A codec with no plans, identity 3. -/
def codecB : Codec :=
  { cid := 3, preferredFormat := BinaryFormatCode,
    formatSupported := fun _ => true,
    planEncode := fun _ _ _ => none,
    planScan := fun _ _ _ => none }

def nameA : String := "a"

def nameB : String := "b"

def nameDup : String := "dup"

/-- Two descriptors sharing OID 100 but with different names. -/
def tA : PGType := { name := nameA, oid := 100, codec := codecA }

def tB : PGType := { name := nameB, oid := 100, codec := codecA }

/-- Registering `tA` then `tB` (same OID, different names). -/
def mC1 : Map := (emptyMap.RegisterType tA).RegisterType tB

/-- Two descriptors sharing OID 200 and the name `dup` but with
different codecs. -/
def tD1 : PGType := { name := nameDup, oid := 200, codec := codecA }

def tD2 : PGType := { name := nameDup, oid := 200, codec := codecB }

/-- A `*string` scan target. -/
def tW : Target := ⟨.ptr .string, false⟩

/-- The registry state after memoizing the text-format `*string` fast
path plan for the text OID starting from the empty registry. -/
def mC3 : Map := memoInsert emptyMap TextOID (RType.ptr RType.string) 0 ScanPlan.stringPlan

/-- A plain string value (the result of unwrapping `vC7a`). -/
def vC7b : EVal := .mk RType.string false none

/-- An unplannable value implementing `driver.Valuer`, unwrapping to
`vC7b`. -/
def vC7a : EVal := .mk (.other 5) false (some (some (Except.ok (some vC7b))))

/-- An unplannable value not implementing `driver.Valuer`. -/
def vC7c : EVal := .mk (.other 5) false none

/-- A trivial encode-plan executor. -/
def execE0 : EncodePlan → EVal → List Nat → Except String (Option (List Nat)) :=
  fun _ _ _ => Except.ok none

/-! Association-list and memo lemmas. -/

theorem alookup_ainsert_self {κ α : Type} [DecidableEq κ]
    (l : List (κ × α)) (k : κ) (a : α) :
    alookup (ainsert l k a) k = some a := by
  induction l with
  | nil => simp [ainsert, alookup]
  | cons p rest ih =>
      by_cases h : p.1 = k
      · simp [ainsert, alookup, h]
      · simp [ainsert, alookup, h, ih]

theorem alookup_ainsert_ne {κ α : Type} [DecidableEq κ]
    (l : List (κ × α)) (k : κ) (a : α) (k2 : κ) (h : k ≠ k2) :
    alookup (ainsert l k a) k2 = alookup l k2 := by
  induction l with
  | nil => simp [ainsert, alookup, h]
  | cons p rest ih =>
      by_cases hp : p.1 = k
      · simp [ainsert, alookup, hp, h]
      · simp [ainsert, alookup, hp, ih]

theorem memoLookup_memoInsert (m : Map) (oid : Nat) (ty : RType) (fmt : Int)
    (p : ScanPlan) :
    memoLookup (memoInsert m oid ty fmt p) oid ty
      = arrSet (memoLookup m oid ty) fmt p := by
  simp [memoLookup, memoInsert, alookup_ainsert_self]

theorem arrGet_arrSet (tm : Option ScanPlan × Option ScanPlan) (fmt : Int)
    (p : ScanPlan) (h : fmt = 0 ∨ fmt = 1) :
    arrGet (arrSet tm fmt p) fmt = some (some p) := by
  rcases h with rfl | rfl <;> simp [arrGet, arrSet]

theorem arrGet_some_formats (tm : Option ScanPlan × Option ScanPlan) (fmt : Int)
    (x : Option ScanPlan) (h : arrGet tm fmt = some x) : fmt = 0 ∨ fmt = 1 := by
  by_cases h0 : fmt = 0
  · exact Or.inl h0
  · by_cases h1 : fmt = 1
    · exact Or.inr h1
    · simp [arrGet, h0, h1] at h

theorem TypeForOID_register_ne (m : Map) (t : PGType) (I : Nat) (h : t.oid ≠ I) :
    (m.RegisterType t).TypeForOID I = m.TypeForOID I := by
  unfold Map.TypeForOID Map.RegisterType
  exact alookup_ainsert_ne _ _ _ _ h

theorem FormatCodeForOID_register_ne (m : Map) (t : PGType) (I : Nat) (h : t.oid ≠ I) :
    (m.RegisterType t).FormatCodeForOID I = m.FormatCodeForOID I := by
  unfold Map.FormatCodeForOID Map.RegisterType
  rw [alookup_ainsert_ne _ _ _ _ h]

theorem foldl_register_preserves (ts : List PGType) (m : Map) (I : Nat)
    (h : ∀ t ∈ ts, t.oid ≠ I) :
    (ts.foldl Map.RegisterType m).TypeForOID I = m.TypeForOID I
    ∧ (ts.foldl Map.RegisterType m).FormatCodeForOID I = m.FormatCodeForOID I := by
  induction ts generalizing m with
  | nil => exact ⟨rfl, rfl⟩
  | cons t ts ih =>
      have ht : t.oid ≠ I := h t (List.mem_cons_self t ts)
      have hrest : ∀ u ∈ ts, u.oid ≠ I := fun u hu => h u (List.mem_cons_of_mem t hu)
      rw [List.foldl_cons]
      refine ⟨?_, ?_⟩
      · rw [(ih (m.RegisterType t) hrest).1, TypeForOID_register_ne m t I ht]
      · rw [(ih (m.RegisterType t) hrest).2, FormatCodeForOID_register_ne m t I ht]

/-- Claim C4: after `RegisterType` of a descriptor `D` and any further
registrations under other identifiers, `TypeForOID D.oid` returns `D`
and `FormatCodeForOID D.oid` returns `D`'s codec's preferred format;
and on a registry built purely from registrations that never touched
an identifier, `FormatCodeForOID` of that identifier returns the text
format code. -/
theorem registered_type_lookup :
    (∀ (m : Map) (D : PGType) (ts : List PGType),
        (∀ t ∈ ts, t.oid ≠ D.oid) →
        (ts.foldl Map.RegisterType (m.RegisterType D)).TypeForOID D.oid = some D
        ∧ (ts.foldl Map.RegisterType (m.RegisterType D)).FormatCodeForOID D.oid
            = D.codec.preferredFormat)
    ∧ (∀ (ts : List PGType) (I : Nat),
        (∀ t ∈ ts, t.oid ≠ I) →
        (ts.foldl Map.RegisterType emptyMap).FormatCodeForOID I = TextFormatCode) := by
  constructor
  · intro m D ts h
    refine ⟨?_, ?_⟩
    · rw [(foldl_register_preserves ts (m.RegisterType D) D.oid h).1]
      unfold Map.TypeForOID Map.RegisterType
      exact alookup_ainsert_self _ _ _
    · rw [(foldl_register_preserves ts (m.RegisterType D) D.oid h).2]
      unfold Map.FormatCodeForOID Map.RegisterType
      rw [alookup_ainsert_self]
      rfl
  · intro ts I h
    rw [(foldl_register_preserves ts emptyMap I h).2]
    rfl

/-- Witness for C4 at concrete inputs: register `int4Type` then `tA`
(OID 100); OID 23 still resolves to `int4Type` with its binary
preferred format, and the never-registered OID 999 gets the text
format code. -/
theorem registered_type_lookup_witness :
    ([tA].foldl Map.RegisterType (emptyMap.RegisterType int4Type)).TypeForOID Int4OID
        = some int4Type
    ∧ ([tA].foldl Map.RegisterType (emptyMap.RegisterType int4Type)).FormatCodeForOID Int4OID
        = BinaryFormatCode
    ∧ ([int4Type].foldl Map.RegisterType emptyMap).FormatCodeForOID 999 = TextFormatCode := by
  have h1 : ∀ t ∈ [tA], t.oid ≠ int4Type.oid := by
    intro t ht
    rw [List.mem_singleton] at ht
    subst ht
    decide
  have h2 : ∀ t ∈ [int4Type], t.oid ≠ 999 := by
    intro t ht
    rw [List.mem_singleton] at ht
    subst ht
    decide
  exact ⟨(registered_type_lookup.1 emptyMap int4Type [tA] h1).1,
         (registered_type_lookup.1 emptyMap int4Type [tA] h1).2,
         registered_type_lookup.2 [int4Type] 999 h2⟩

/-- Claim C5: `Map.Encode` on a nil value returns nil bytes and no
error, for every registry, identifier, format and buffer, and even
with zero fuel — no descriptor lookup or plan resolution happens. -/
theorem encode_nil_value (execE : EncodePlan → EVal → List Nat → Except String (Option (List Nat)))
    (fuel : Nat) (m : Map) (oid : Nat) (fmt : Int) (buf : List Nat) :
    m.Encode execE fuel oid fmt none buf = POut.ok (Except.ok none) := by
  cases fuel <;> rfl

/-- Claim C6: a plan produced by `TryPointerPointerScanPlan` on a
pointer-to-pointer target, bound to an inner plan `next`: a nil source
sets the outer pointer slot to nil with no error (regardless of its
old value), and a non-nil source replaces the slot with a fresh
pointee — started from the zero value, independent of the old slot —
scanned from the source by the inner plan. -/
theorem pointer_pointer_scan (t : RType) (r : Bool)
    (next : Option (List Nat) → GoVal → Except String GoVal)
    (zeroElem : GoVal) (el : Option GoVal) (s : List Nat) :
    TryPointerPointerScanPlan ⟨.ptr (.ptr t), r⟩
      = some (fun p => ScanPlan.pointerPointer p, ⟨.ptr t, false⟩)
    ∧ pointerPointerScanPlanScan next zeroElem none el = Except.ok none
    ∧ pointerPointerScanPlanScan next zeroElem (some s) el
        = (next (some s) zeroElem).map (fun v => some v) :=
  ⟨rfl, rfl, rfl⟩

/-- Claim C10: `Map.Scan` with a nil destination returns no error and
leaves the registry untouched, for every executor, fuel (even zero),
identifier, format (even out-of-range ones) and source — no plan is
resolved or executed. -/
theorem scan_nil_destination
    (exec : ScanPlan → Option (List Nat) → GoVal → Except String GoVal)
    (fuel : Nat) (m : Map) (oid : Nat) (fmt : Int) (src : Option (List Nat)) :
    m.Scan exec fuel oid fmt src none = POut.ok (m, Except.ok none) := rfl

/-- Claim C8: for any non-bytea identifier, text-format scan-plan
resolution with a `*[]byte` target yields the byte-copy plan for every
registry (so before any codec is consulted), and executing that plan
copies a non-nil source's bytes into the destination and sets the
destination to nil on a nil source, never erroring. -/
theorem text_byte_slice_fast_path (fuel : Nat) (m : Map) (oid : Nat) (r : Bool)
    (h : oid ≠ ByteaOID) :
    planScanF (fuel + 1) m oid TextFormatCode ⟨.ptr .byteSlice, r⟩
        = .val .anyTextToBytes
    ∧ (∀ (s : List Nat) (dst : Option (List Nat)),
        scanPlanAnyTextToBytesScan (some s) dst = Except.ok (some s))
    ∧ (∀ dst : Option (List Nat),
        scanPlanAnyTextToBytesScan none dst = Except.ok none) := by
  refine ⟨?_, fun s dst => rfl, fun dst => rfl⟩
  simp [planScanF, scanFastPath, TextFormatCode, BinaryFormatCode, h]

/-- Witness for C8 at concrete inputs: the text OID (25) with target
`*[]byte`, source bytes [104, 105]. -/
theorem text_byte_slice_fast_path_witness :
    planScanF 1 emptyMap TextOID TextFormatCode ⟨.ptr .byteSlice, false⟩
        = .val .anyTextToBytes
    ∧ scanPlanAnyTextToBytesScan (some [104, 105]) none = Except.ok (some [104, 105])
    ∧ scanPlanAnyTextToBytesScan none (some [1]) = Except.ok none :=
  ⟨(text_byte_slice_fast_path 0 emptyMap TextOID false (by decide)).1,
   (text_byte_slice_fast_path 0 emptyMap TextOID false (by decide)).2.1 [104, 105] none,
   (text_byte_slice_fast_path 0 emptyMap TextOID false (by decide)).2.2 (some [1])⟩

/-- Counterexample to claim C1 as stated: registering `tB` (OID 100,
name `b`) after `tA` (OID 100, name `a`) does not fully replace `tA`
in the name index — `TypeForName` of `a` still returns `tA`, even
though `TypeForOID 100` now returns `tB`, so the two indexes are not
mutually consistent either. -/
theorem register_replaces_counterexample :
    mC1.TypeForName nameA = some tA
    ∧ tA ≠ tB
    ∧ mC1.TypeForOID 100 = some tB := by
  refine ⟨rfl, ?_, rfl⟩
  intro h
  have h2 : tA.name = tB.name := by rw [h]
  simp only [tA, tB, nameA, nameB] at h2
  exact absurd h2 (by decide)

/-- Claim C1 (amended): registering `t2` under `t1`'s identifier
replaces `t1` in the identifier index and installs `t2` in the name
index under `t2`'s name; `t1` disappears from the name index (and the
two indexes agree) when the two descriptors share the same name; and
in all cases every previously memoized scan plan is invalidated (the
memo cache is empty) and the derived shape index is discarded. -/
theorem register_replaces (m : Map) (t1 t2 : PGType) (hoid : t1.oid = t2.oid) :
    ((m.RegisterType t1).RegisterType t2).TypeForOID t1.oid = some t2
    ∧ ((m.RegisterType t1).RegisterType t2).TypeForName t2.name = some t2
    ∧ (t1 ≠ t2 → ((m.RegisterType t1).RegisterType t2).TypeForOID t1.oid ≠ some t1)
    ∧ (t1.name = t2.name → t1 ≠ t2 →
        ((m.RegisterType t1).RegisterType t2).TypeForName t1.name ≠ some t1)
    ∧ (t1.name = t2.name →
        ((m.RegisterType t1).RegisterType t2).TypeForOID t1.oid
          = ((m.RegisterType t1).RegisterType t2).TypeForName t1.name)
    ∧ ((m.RegisterType t1).RegisterType t2).memoizedScanPlans = []
    ∧ ((m.RegisterType t1).RegisterType t2).reflectTypeToType = none := by
  have hO : ((m.RegisterType t1).RegisterType t2).TypeForOID t1.oid = some t2 := by
    unfold Map.TypeForOID Map.RegisterType
    rw [hoid]
    exact alookup_ainsert_self _ _ _
  have hN : ((m.RegisterType t1).RegisterType t2).TypeForName t2.name = some t2 := by
    unfold Map.TypeForName Map.RegisterType
    exact alookup_ainsert_self _ _ _
  refine ⟨hO, hN, ?_, ?_, ?_, rfl, rfl⟩
  · intro hne h1
    rw [hO] at h1
    exact hne (Option.some_injective _ h1).symm
  · intro hname hne h1
    rw [hname, hN] at h1
    exact hne (Option.some_injective _ h1).symm
  · intro hname
    rw [hname, hO, hN]

/-- Witness for C1 (amended) at concrete inputs: `tD1` and `tD2` share
OID 200 and name `dup` but have different codecs. -/
theorem register_replaces_witness :
    ((emptyMap.RegisterType tD1).RegisterType tD2).TypeForOID tD1.oid = some tD2
    ∧ ((emptyMap.RegisterType tD1).RegisterType tD2).TypeForName tD2.name = some tD2
    ∧ ((emptyMap.RegisterType tD1).RegisterType tD2).TypeForName tD1.name ≠ some tD1
    ∧ ((emptyMap.RegisterType tD1).RegisterType tD2).memoizedScanPlans = []
    ∧ ((emptyMap.RegisterType tD1).RegisterType tD2).reflectTypeToType = none := by
  have hne : tD1 ≠ tD2 := by
    intro h
    have h2 : tD1.codec.cid = tD2.codec.cid := by rw [h]
    simp only [tD1, tD2, codecA, codecB] at h2
    exact absurd h2 (by decide)
  have h := register_replaces emptyMap tD1 tD2 rfl
  exact ⟨h.1, h.2.1, h.2.2.2.1 rfl hne, h.2.2.2.2.2.1, h.2.2.2.2.2.2⟩

/-- Claim C9: `Map.PlanScan` indexes the two-slot memo array directly
with the caller-supplied format code: with format code 0 or 1 the
access is in bounds (no panic, for every state), and with format code
2 — outside the text/binary codes — the access is out of bounds and
panics, for every state. -/
theorem planScan_format_bounds :
    (∀ (fuel : Nat) (m : Map) (oid : Nat) (fmt : Int) (t : Target),
        fmt = 0 ∨ fmt = 1 → m.PlanScan fuel oid fmt t ≠ POut.crash)
    ∧ (∀ (fuel : Nat) (m : Map) (oid : Nat) (t : Target),
        m.PlanScan fuel oid 2 t = POut.crash) := by
  constructor
  · intro fuel m oid fmt t hf
    have hx : ∃ x, arrGet (memoLookup m oid t.ty) fmt = some x := by
      rcases hf with rfl | rfl <;> exact ⟨_, rfl⟩
    rcases hx with ⟨x, hx⟩
    unfold Map.PlanScan
    rw [hx]
    rcases x with _ | p
    · rcases planScanF fuel m oid fmt t with _ | p2 <;> simp
    · simp
  · intro fuel m oid t
    unfold Map.PlanScan
    rfl

/-- Witness for C9 at concrete inputs: the empty registry, OID 0, the
`*string` target; format 0 is in bounds, format 2 panics. -/
theorem planScan_format_bounds_witness :
    emptyMap.PlanScan 0 0 0 tW ≠ POut.crash
    ∧ emptyMap.PlanScan 0 0 2 tW = POut.crash :=
  ⟨planScan_format_bounds.1 0 emptyMap 0 0 tW (Or.inl rfl),
   planScan_format_bounds.2 0 emptyMap 0 tW⟩

/-- Claim C3: once `Map.PlanScan` has answered for a triple
(identifier, target reflect type, format), calling it again on the
resulting registry with the same triple — any fuel — returns the
identical memoized plan, leaves the registry unchanged, and does not
invoke the underlying `planScan` computation (instrumentation flag
`false`): the planning computation runs at most once per distinct
triple. -/
theorem planScan_memoized (fuel fuel2 : Nat) (m : Map) (oid : Nat) (fmt : Int)
    (t : Target) (p : ScanPlan) (m1 : Map) (b : Bool)
    (h : m.PlanScan fuel oid fmt t = POut.ok (p, m1, b)) :
    m1.PlanScan fuel2 oid fmt t = POut.ok (p, m1, false) := by
  unfold Map.PlanScan at h ⊢
  rcases hg : arrGet (memoLookup m oid t.ty) fmt with _ | mp
  · rw [hg] at h
    exact absurd h (by simp)
  · rw [hg] at h
    rcases mp with _ | p0
    · rcases hps : planScanF fuel m oid fmt t with _ | p0
      · rw [hps] at h
        exact absurd h (by simp)
      · rw [hps] at h
        simp only [POut.ok.injEq, Prod.mk.injEq] at h
        obtain ⟨hp, hm, hb⟩ := h
        subst hp
        rw [← hm]
        rw [memoLookup_memoInsert,
            arrGet_arrSet _ _ _ (arrGet_some_formats _ _ _ hg)]
    · simp only [POut.ok.injEq, Prod.mk.injEq] at h
      obtain ⟨hp, hm, hb⟩ := h
      subst hp
      rw [← hm]
      rw [hg]

/-- Witness for C3 at concrete inputs: after the first `PlanScan` call
for (text OID, `*string`, text format) on the empty registry produced
`mC3`, a second call (with zero fuel) returns the same plan without
invoking the planner. -/
theorem planScan_memoized_witness :
    mC3.PlanScan 0 TextOID 0 tW = POut.ok (ScanPlan.stringPlan, mC3, false) :=
  planScan_memoized 1 0 emptyMap TextOID 0 tW ScanPlan.stringPlan mC3 true (by rfl)

/-- Counterexample to claim C2 as stated: in `mC2` the identifier 999
is nonzero and unregistered, yet `planScan` consults shape inference:
it resolves the target's default descriptor and hands the codec the
adopted identifier 23, while the spec-worded variant (inference only
at identifier 0, `planScanSpecF`) fails with the original
identifier. -/
theorem resolve_descriptor_inference_counterexample :
    planScanF 1 mC2 999 BinaryFormatCode tC2 = .val (.codecPlan 1 Int4OID BinaryFormatCode)
    ∧ planScanSpecF 1 mC2 999 BinaryFormatCode tC2 = .val (.failPlan 999 BinaryFormatCode)
    ∧ mC2.TypeForOID 999 = none
    ∧ (999 : Nat) ≠ 0 := by
  refine ⟨by decide, by decide, rfl, by decide⟩

/-- Claim C2 (amended): encode-plan resolution consults shape
inference only when the identifier is 0, resolving a nonzero
identifier by lookup alone; scan-plan resolution consults shape
inference whenever the identifier lookup fails — including nonzero
unregistered identifiers, not only identifier 0.  In both directions,
a successful inference adopts the inferred identifier: the codec (and
hence every recursive sub-resolution) is consulted at the inferred
descriptor's identifier. -/
theorem resolve_descriptor_inference :
    (∀ (fuel : Nat) (m : Map) (oid : Nat) (fmt : Int) (v : EVal) (dt : PGType)
        (p : EncodePlan),
        oid ≠ 0 → encodeFastPath fmt v.ty = none →
        m.TypeForOID oid = some dt → dt.codec.planEncode oid fmt v.ty = some p →
        planEncodeF (fuel + 1) m oid fmt v = .val (some p))
    ∧ (∀ (fuel : Nat) (m : Map) (fmt : Int) (v : EVal) (dt : PGType) (p : EncodePlan),
        encodeFastPath fmt v.ty = none →
        m.TypeForValue v.ty = some dt → dt.codec.planEncode dt.oid fmt v.ty = some p →
        planEncodeF (fuel + 1) m 0 fmt v = .val (some p))
    ∧ (∀ (fuel : Nat) (m : Map) (oid : Nat) (fmt : Int) (t : Target) (dt : PGType)
        (p : ScanPlan),
        scanFastPath oid fmt t.ty = none →
        m.TypeForOID oid = some dt → dt.codec.planScan oid fmt t = some p →
        planScanF (fuel + 1) m oid fmt t = .val p)
    ∧ (∀ (fuel : Nat) (m : Map) (oid : Nat) (fmt : Int) (t : Target) (dt : PGType)
        (p : ScanPlan),
        scanFastPath oid fmt t.ty = none →
        m.TypeForOID oid = none → m.TypeForValue t.ty = some dt →
        dt.codec.planScan dt.oid fmt t = some p →
        planScanF (fuel + 1) m oid fmt t = .val p) := by
  refine ⟨?_, ?_, ?_, ?_⟩
  · intro fuel m oid fmt v dt p hne hfast hdt hp
    have hr : resolveEncodeDT m oid v.ty = (some dt, oid) := by
      unfold resolveEncodeDT
      rw [if_neg hne, hdt]
    simp only [planEncodeF, hfast, hr, hp]
  · intro fuel m fmt v dt p hfast hdt hp
    have hr : resolveEncodeDT m 0 v.ty = (some dt, dt.oid) := by
      unfold resolveEncodeDT
      rw [if_pos rfl, hdt]
    simp only [planEncodeF, hfast, hr, hp]
  · intro fuel m oid fmt t dt p hfast hdt hp
    have hr : resolveScanDT m oid t.ty = (some dt, oid) := by
      unfold resolveScanDT
      rw [hdt]
    simp only [planScanF, hfast, hr, hp]
  · intro fuel m oid fmt t dt p hfast hmiss hinf hp
    have hr : resolveScanDT m oid t.ty = (some dt, dt.oid) := by
      unfold resolveScanDT
      rw [hmiss, hinf]
    simp only [planScanF, hfast, hr, hp]

/-- Witness for C2 (amended) at concrete inputs on `mC2`: encode with
nonzero identifier 23 and with identifier 0 plus inference; scan with
registered identifier 23 and with unregistered identifier 999 plus
inference adopting identifier 23. -/
theorem resolve_descriptor_inference_witness :
    planEncodeF 1 mC2 Int4OID BinaryFormatCode (EVal.mk (.other 0) false none)
        = .val (some (.codecPlan 1 Int4OID BinaryFormatCode))
    ∧ planEncodeF 1 mC2 0 BinaryFormatCode (EVal.mk (.ptr (.other 0)) false none)
        = .val (some (.codecPlan 1 Int4OID BinaryFormatCode))
    ∧ planScanF 1 mC2 Int4OID BinaryFormatCode tC2
        = .val (.codecPlan 1 Int4OID BinaryFormatCode)
    ∧ planScanF 1 mC2 999 BinaryFormatCode tC2
        = .val (.codecPlan 1 Int4OID BinaryFormatCode) :=
  ⟨resolve_descriptor_inference.1 0 mC2 Int4OID BinaryFormatCode
      (EVal.mk (.other 0) false none) int4Type (.codecPlan 1 Int4OID BinaryFormatCode)
      (by decide) rfl rfl rfl,
   resolve_descriptor_inference.2.1 0 mC2 BinaryFormatCode
      (EVal.mk (.ptr (.other 0)) false none) int4Type (.codecPlan 1 Int4OID BinaryFormatCode)
      rfl rfl rfl,
   resolve_descriptor_inference.2.2.1 0 mC2 Int4OID BinaryFormatCode tC2 int4Type
      (.codecPlan 1 Int4OID BinaryFormatCode) rfl rfl rfl,
   resolve_descriptor_inference.2.2.2 0 mC2 999 BinaryFormatCode tC2 int4Type
      (.codecPlan 1 Int4OID BinaryFormatCode) rfl rfl rfl rfl⟩

/-- Claim C7: when `Map.Encode` finds no encode plan for a non-nil
value, a `driver.Valuer` value whose `Value()` succeeds is unwrapped
once and the whole encode resolution is retried on the unwrapped
value; a value without the capability gets a hard error and no
bytes. -/
theorem encode_no_plan_fallback
    (execE : EncodePlan → EVal → List Nat → Except String (Option (List Nat)))
    (fuel : Nat) (m : Map) (oid : Nat) (fmt : Int) (v : EVal) (buf : List Nat)
    (h : planEncodeF (fuel + 1) m oid fmt v = .val none) :
    (∀ v2 : Option EVal, v.valuer = some (some (Except.ok v2)) →
        m.Encode execE (fuel + 1) oid fmt (some v) buf
          = m.Encode execE fuel oid fmt v2 buf)
    ∧ (v.valuer = none →
        m.Encode execE (fuel + 1) oid fmt (some v) buf
          = POut.ok (Except.error ("unable to encode into OID " ++ toString oid))) := by
  constructor
  · intro v2 hv
    simp only [Map.Encode, h, hv]
  · intro hv
    simp only [Map.Encode, h, hv]

/-- Witness for C7 at concrete inputs: the unplannable valuer `vC7a`
retries on its unwrapped value, and the unplannable non-valuer `vC7c`
errors. -/
theorem encode_no_plan_fallback_witness :
    emptyMap.Encode execE0 1 7 BinaryFormatCode (some vC7a) []
        = emptyMap.Encode execE0 0 7 BinaryFormatCode (some vC7b) []
    ∧ emptyMap.Encode execE0 1 7 BinaryFormatCode (some vC7c) []
        = POut.ok (Except.error ("unable to encode into OID " ++ toString 7)) :=
  ⟨(encode_no_plan_fallback execE0 0 emptyMap 7 BinaryFormatCode vC7a [] (by decide)).1
      (some vC7b) rfl,
   (encode_no_plan_fallback execE0 0 emptyMap 7 BinaryFormatCode vC7c [] (by decide)).2 rfl⟩

end Pgtype
